import Mathlib

/-!
Verification development for the ixbrl-parse core (`ixbrlparse/core.py`).

The document tree produced by the external tree-parse collaborator
(BeautifulSoup) is embedded abstractly through the four read-only
operations the core depends on: an element exposes its tag name, its
attribute map, its text content, and its descendant elements in
document order.  All core functions of `core.py` are translated over
this interface.  The `ixbrlparse/components.py` module (the
`ixbrlContext`, `ixbrlNonNumeric` and `ixbrlNumeric` constructors,
i.e. the NumericNormalizer of the specification) is not part of the
sources; those constructors are modelled from the specification and
are marked as such in their doc comments.
-/

/-- A Python-style error value, as raised by the parser: `KeyError`
from a missing subscripted attribute, `AttributeError` from an
attribute access on `None`, `ValueError` from a failed conversion,
a numeric-format failure from the normalizer, and the generic
`Exception` used for an unrecognised filetype. -/

inductive PyError where
  | keyError : String → PyError
  | attrError : String → PyError
  | valueError : String → PyError
  | formatError : String → String → PyError
  | exception : String → PyError
deriving DecidableEq, Repr

/-- An element of the parsed document tree, exposing exactly the
interface the core consumes: tag name, attribute map, text content,
and the list of all descendant elements in document order. -/
inductive Elem where
  | mk : String → List (String × String) → String → List Elem → Elem

/-- Tag name of an element (BeautifulSoup `tag.name`). -/
def Elem.tag : Elem → String
  | .mk t _ _ _ => t

/-- Attribute map of an element (BeautifulSoup `tag.attrs`), in
document order of the attributes. -/
def Elem.attrs : Elem → List (String × String)
  | .mk _ a _ _ => a

/-- Text content of an element (BeautifulSoup `tag.text`). -/
def Elem.textContent : Elem → String
  | .mk _ _ tx _ => tx

/-- All descendant elements of an element in document order
(BeautifulSoup `tag.find_all()` / `tag.findChildren()`). -/
def Elem.desc : Elem → List Elem
  | .mk _ _ _ d => d

/-- Build an element from direct children, assembling the stored
descendant list in document (pre-)order. -/
def withKids (tag : String) (attrs : List (String × String)) (txt : String)
    (kids : List Elem) : Elem :=
  .mk tag attrs txt (kids.foldr (fun k acc => k :: (Elem.desc k ++ acc)) [])

/-- Python `dict` lookup `d.get(k)`: the value stored at the key, if
present. -/
def dictGet (d : List (String × α)) (k : String) : Option α :=
  (d.find? (fun p => p.1 == k)).map (fun p => p.2)

/-- Python `dict` assignment `d[k] = v`: replaces the value at an
existing key in place, otherwise appends the new binding. -/
def dictSet (d : List (String × α)) (k : String) (v : α) : List (String × α) :=
  match d with
  | [] => [(k, v)]
  | p :: rest => if p.1 == k then (k, v) :: rest else p :: dictSet rest k v

/-- Python truthiness of an optional string attribute value:
`None` and the empty string are falsy. -/
def pyTruthy (o : Option String) : Bool :=
  match o with
  | none => false
  | some s => !(s == "")

/-- Subscript access `element[key]` on an element's attribute map:
raises `KeyError` when the attribute is absent. -/
def getAttrEx (s : Elem) (k : String) : Except PyError String :=
  match dictGet s.attrs k with
  | some v => .ok v
  | none => .error (.keyError k)

/-- Whether an `Except` result is a success. -/
def exOk : Except ε α → Bool
  | .ok _ => true
  | .error _ => false

/-- ASCII whitespace, for Python `str.strip`. -/
def isWs (c : Char) : Bool :=
  c == ' ' || c == '\n' || c == '\t' || c == '\r'

/-- Python `str.strip()` on a character list. -/
def stripWs (cs : List Char) : List Char :=
  ((cs.dropWhile isWs).reverse.dropWhile isWs).reverse

/-- Python `str.strip()`. -/
def pyStrip (s : String) : String :=
  ⟨stripWs s.data⟩

/-- Python `str.replace("\n", "")`: removes every newline. -/
def dropNl (s : String) : String :=
  ⟨s.data.filter (fun c => !(c == '\n'))⟩

/-- Split a character list on a separator character, keeping empty
pieces (Python `str.split(sep)`). -/
def splitChar (sep : Char) : List Char → List (List Char)
  | [] => [[]]
  | c :: cs =>
    let r := splitChar sep cs
    if c == sep then [] :: r
    else
      match r with
      | [] => [[c]]
      | g :: gs => (c :: g) :: gs

/-- Python `str.split(" ")` producing strings. -/
def splitSpaces (s : String) : List String :=
  (splitChar ' ' s.data).map (fun cs => ⟨cs⟩)

/-- Whether a string is a prefix of another, character by character. -/
def listStarts : List Char → List Char → Bool
  | [], _ => true
  | _ :: _, [] => false
  | a :: as, b :: bs => a == b && listStarts as bs

/-- Python `str.startswith(pre)`. -/
def strStarts (pre s : String) : Bool :=
  listStarts pre.data s.data

/-- Python `" ".join(l)`. -/
def joinSpace : List String → String
  | [] => ""
  | [x] => x
  | x :: xs => x ++ " " ++ joinSpace xs

/-- Numeric value of a list of decimal digit characters. -/
def digitsVal (cs : List Char) : Nat :=
  cs.foldl (fun acc c => acc * 10 + (c.toNat - 48)) 0

/-- Parse a non-empty all-digit character list as a natural number. -/
def decToNat? (cs : List Char) : Option Nat :=
  if cs.isEmpty then none
  else if cs.all (fun c => c.isDigit) then some (digitsVal cs)
  else none

/-- Parse an optionally-negated digit string as an integer. -/
def parseInt? (s : String) : Option Int :=
  match s.data with
  | '-' :: rest => (decToNat? rest).map (fun n => -(n : Int))
  | cs => (decToNat? cs).map (fun n => (n : Int))

/-- An exact decimal number `mant · 10 ^ exp`.  The normalizer's
inputs and outputs all have this shape (a parsed decimal magnitude
shifted by a power-of-ten scale), so the derived value of a numeric
fact is represented exactly; its numeric meaning is `DecNum.toRat`. -/
structure DecNum where
  mant : Int
  exp : Int
deriving DecidableEq, Repr

/-- Ten raised to an integer exponent; a negative exponent divides. -/
def pow10 (z : Int) : Rat :=
  if 0 ≤ z then (10 : Rat) ^ z.toNat else 1 / (10 : Rat) ^ (-z).toNat

/-- The rational value an exact decimal denotes. -/
def DecNum.toRat (q : DecNum) : Rat :=
  (q.mant : Rat) * pow10 q.exp

/-- Parse a cleaned character list as a non-negative decimal
magnitude: an integer part and an optional fractional part, both
plain digit runs separated by a single dot. -/
def parseDecimal? (cs : List Char) : Option DecNum :=
  match splitChar '.' cs with
  | [i] => (decToNat? i).map (fun n => ⟨(n : Int), 0⟩)
  | [i, f] =>
    match decToNat? i, decToNat? f with
    | some a, some b =>
      some ⟨(a : Int) * (10 : Int) ^ f.length + (b : Int), -(f.length : Int)⟩
    | _, _ => none
  | _ => none

/-- Modelled from the spec: the closed registry of numeric
transformation rules of the NumericNormalizer (§4.5), whose
implementation (`ixbrlparse/components.py`) is not among the sources.
The families are: fixed-zero; comma-as-group/dot-as-decimal;
dot-as-group/comma-as-decimal; space-as-group/dot-as-decimal; and
no separators. -/
inductive NumFormatKind where
  | fixedZero
  | commaGroup
  | dotGroup
  | spaceGroup
  | plain
deriving DecidableEq, Repr

/-- Modelled from the spec: resolve an optional format code against
the fixed registry.  An absent code parses with no separators; an
unrecognized code is a normalization failure. -/
def formatKind? (fmt : Option String) : Option NumFormatKind :=
  match fmt with
  | none => some .plain
  | some f =>
    if f == "zerodash" || f == "numdash" || f == "fixedzero" then some .fixedZero
    else if f == "numdotdecimal" || f == "numcommadot" then some .commaGroup
    else if f == "numcommadecimal" || f == "numcomma" then some .dotGroup
    else if f == "numspacedot" then some .spaceGroup
    else none

/-- Modelled from the spec: strip the declared grouping/decimal
convention from cleaned numeric text, leaving a plain decimal run. -/
def applyConv (k : NumFormatKind) (cs : List Char) : List Char :=
  match k with
  | .fixedZero => cs
  | .commaGroup => cs.filter (fun c => !(c == ','))
  | .dotGroup => (cs.filter (fun c => !(c == '.'))).map (fun c => if c == ',' then '.' else c)
  | .spaceGroup => cs.filter (fun c => !(c == ' '))
  | .plain => cs

/-- Modelled from the spec: steps 1-3 of the NumericNormalizer —
trim whitespace and embedded newlines, answer `0` for the fixed-zero
family, otherwise strip the declared convention and parse a
non-negative decimal magnitude; unrecognized codes and unparsable
text fail with the format error naming the raw text and code. -/
def parseMagnitude (raw : String) (fmt : Option String) : Except PyError DecNum :=
  match formatKind? fmt with
  | none => .error (.formatError raw (fmt.getD ""))
  | some .fixedZero => .ok ⟨0, 0⟩
  | some k =>
    match parseDecimal? (applyConv k (stripWs ((dropNl raw).data))) with
    | some m => .ok m
    | none => .error (.formatError raw (fmt.getD ""))

/-- Modelled from the spec: step 4 of the NumericNormalizer — a sign
marker of `"-"` negates the magnitude, any other marker leaves it
unchanged. -/
def applySign (sign : String) (m : DecNum) : DecNum :=
  if sign = "-" then ⟨-m.mant, m.exp⟩ else m

/-- Modelled from the spec: step 5 of the NumericNormalizer —
multiply by ten raised to the scale exponent; a negative exponent
divides. -/
def applyScale (m : DecNum) (scale : Int) : DecNum :=
  ⟨m.mant, m.exp + scale⟩

/-- Modelled from the spec: the NumericNormalizer (§4.5) — a pure
function of raw text, optional format code, sign marker and scale
exponent, producing a finite number or failing.  The implementation
(`ixbrlparse/components.py`) is not among the sources. -/
def normalizeNum (raw : String) (fmt : Option String) (sign : String)
    (scale : Int) : Except PyError DecNum :=
  match parseMagnitude raw fmt with
  | .error e => .error e
  | .ok m => .ok (applyScale (applySign sign m) scale)

/-- First descendant of `root` whose tag name is among the accepted
spellings (BeautifulSoup `root.find(names)`). -/
def findNamed (names : List String) (root : Elem) : Option Elem :=
  root.desc.find? (fun e => names.contains e.tag)

/-- All descendants of `root` whose tag name is among the accepted
spellings, in document order (BeautifulSoup `root.find_all(names)`). -/
def findAllNamed (names : List String) (root : Elem) : List Elem :=
  root.desc.filter (fun e => names.contains e.tag)

/-- Entity part of a reporting context: scheme attribute and trimmed
text of the identifier child, both null when absent. -/
structure ContextEntity where
  scheme : Option String
  identifier : Option String
deriving DecidableEq, Repr

/-- A reporting context as built by `IXBRLParser._get_contexts`.  The
period fields hold the trimmed text of the instant/startDate/endDate
children; their conversion to date values happens inside the
`ixbrlContext` constructor of `ixbrlparse/components.py`, which is
not among the sources, so the fields are kept as the strings the
core passes in (modelled from the spec, which keeps an unparsable
field null and the context otherwise intact). -/
structure ixbrlContext where
  id : String
  entity : ContextEntity
  segments : Option (List (List (String × String)))
  instant : Option String
  startdate : Option String
  enddate : Option String
deriving DecidableEq, Repr

/-- One segment member record: the Python dict
`{"tag": x.name, "value": x.text.strip(), **x.attrs}`, the attribute
map merged over the two fixed keys. -/
def segMember (x : Elem) : List (String × String) :=
  x.attrs.foldl (fun d kv => dictSet d kv.1 kv.2)
    [("tag", x.tag), ("value", pyStrip x.textContent)]

/-- The keyword arguments `IXBRLParser._get_contexts` builds for one
context element: entity scheme (subscript access, so a `KeyError`
when the identifier child lacks its scheme attribute), entity
identifier, segment member list, and the trimmed period texts. -/
def mkContext (s : Elem) (i : String) : Except PyError ixbrlContext :=
  let identEl := findNamed ["xbrli:identifier", "identifier"] s
  match (match identEl with
         | some e => (getAttrEx e "scheme").map (fun sc => some (pyStrip sc))
         | none => .ok none : Except PyError (Option String)) with
  | .error e => .error e
  | .ok scheme =>
    .ok { id := i
          entity := { scheme := scheme
                      identifier := identEl.map (fun e => pyStrip e.textContent) }
          segments :=
            match findNamed ["xbrli:segment", "segment"] s with
            | some seg => some (seg.desc.map segMember)
            | none => none
          instant := (findNamed ["xbrli:instant", "instant"] s).map
            (fun e => pyStrip e.textContent)
          startdate := (findNamed ["xbrli:startDate", "startDate"] s).map
            (fun e => pyStrip e.textContent)
          enddate := (findNamed ["xbrli:endDate", "endDate"] s).map
            (fun e => pyStrip e.textContent) }

/-- The value `IXBRLParser._get_units` stores for one unit element:
the trimmed text of its first measure child, or null. -/
def mkUnit (s : Elem) : Option String :=
  (findNamed ["xbrli:measure", "measure"] s).map (fun e => pyStrip e.textContent)

/-- The loop body of `IXBRLParser._get_contexts`: for each context
element read its `id` by subscript (an uncaught `KeyError` when
absent), build the context record, and assign it into the map. -/
def buildContexts : List Elem → List (String × ixbrlContext) →
    Except PyError (List (String × ixbrlContext))
  | [], m => .ok m
  | s :: rest, m =>
    match getAttrEx s "id" with
    | .error e => .error e
    | .ok i =>
      match mkContext s i with
      | .error e => .error e
      | .ok c => buildContexts rest (dictSet m i c)

/-- The loop body of `IXBRLParser._get_units`: for each unit element
read its `id` by subscript (an uncaught `KeyError` when absent) and
assign its measure value into the map. -/
def buildUnits : List Elem → List (String × Option String) →
    Except PyError (List (String × Option String))
  | [], m => .ok m
  | s :: rest, m =>
    match getAttrEx s "id" with
    | .error e => .error e
    | .ok i => buildUnits rest (dictSet m i (mkUnit s))

/-- The two supported document grammars. -/
inductive Filetype where
  | ixbrl
  | xbrl
deriving DecidableEq, Repr

/-- Root element name of each grammar. -/
def rootName : Filetype → String
  | .ixbrl => "html"
  | .xbrl => "xbrl"

/-- Context-kind elements per grammar: the inline parser walks the
`ix:resources`/`resources` subtree (an `AttributeError` when it is
absent), the bare parser the whole document. -/
def contextElements (ft : Filetype) (soup : Elem) : Except PyError (List Elem) :=
  match ft with
  | .ixbrl =>
    match findNamed ["ix:resources", "resources"] soup with
    | none => .error (.attrError "find_all")
    | some r => .ok (findAllNamed ["xbrli:context", "context"] r)
  | .xbrl => .ok (findAllNamed ["xbrli:context", "context"] soup)

/-- Unit-kind elements per grammar, mirroring `contextElements`. -/
def unitElements (ft : Filetype) (soup : Elem) : Except PyError (List Elem) :=
  match ft with
  | .ixbrl =>
    match findNamed ["ix:resources", "resources"] soup with
    | none => .error (.attrError "find_all")
    | some r => .ok (findAllNamed ["xbrli:unit", "unit"] r)
  | .xbrl => .ok (findAllNamed ["xbrli:unit", "unit"] soup)

/-- `IXBRLParser._get_contexts`: fetch the context elements and fold
them into the id-keyed map. -/
def getContexts (ft : Filetype) (soup : Elem) :
    Except PyError (List (String × ixbrlContext)) :=
  match contextElements ft soup with
  | .error e => .error e
  | .ok elems => buildContexts elems []

/-- `IXBRLParser._get_units`: fetch the unit elements and fold them
into the id-keyed map. -/
def getUnits (ft : Filetype) (soup : Elem) :
    Except PyError (List (String × Option String)) :=
  match unitElements ft soup with
  | .error e => .error e
  | .ok elems => buildUnits elems []

/-- `IXBRLParser._get_schema`: the `xlink:href` of the first
schemaRef element (an `AttributeError` when there is none), and the
namespace map read off the root element's attributes — every
attribute whose key starts with `xmlns` or contains a colon, its
value split on single spaces. -/
def getSchema (ft : Filetype) (soup : Elem) :
    Except PyError (Option String × List (String × List String)) :=
  match findNamed ["link:schemaRef", "schemaRef"] soup with
  | none => .error (.attrError "get")
  | some se =>
    match findNamed [rootName ft] soup with
    | none => .error (.attrError "attrs")
    | some root =>
      .ok (dictGet se.attrs "xlink:href",
        root.attrs.foldl
          (fun m kv =>
            if strStarts "xmlns" kv.1 || kv.1.data.contains ':' then
              dictSet m kv.1 (splitSpaces kv.2)
            else m)
          [])

/-- A resolved or unresolved context reference: the context record
from the map, or the raw reference string when the id is unknown
(`self.contexts.get(ref, ref)`). -/
def resolveCtx (m : List (String × ixbrlContext)) (ref : String) :
    ixbrlContext ⊕ String :=
  match dictGet m ref with
  | some c => .inl c
  | none => .inr ref

/-- A resolved or unresolved unit reference
(`self.units.get(ref, ref)`). -/
def resolveUnit (m : List (String × Option String)) (ref : String) :
    Option String ⊕ String :=
  match dictGet m ref with
  | some u => .inl u
  | none => .inr ref

/-- Split a qualified name on its colon into namespace prefix and
local name; a name with no single colon keeps the `unknown` prefix
(modelled from the spec's NumericFact/NonNumericFact records, whose
constructors are not among the sources). -/
def splitQName (n : String) : String × String :=
  match splitChar ':' n.data with
  | [pre, loc] => (⟨pre⟩, ⟨loc⟩)
  | _ => ("unknown", n)

/-- A non-numeric fact record (spec §3), as constructed by
`ixbrlNonNumeric`. -/
structure ixbrlNonNumeric where
  context : ixbrlContext ⊕ String
  schema : String
  name : String
  format_ : Option String
  value : String
deriving DecidableEq, Repr

/-- A numeric fact record (spec §3), as constructed by
`ixbrlNumeric`: references resolved or carried raw, the raw text,
the format/sign/scale/decimals attributes, and the derived value. -/
structure ixbrlNumeric where
  schema : String
  name : String
  text : String
  context : ixbrlContext ⊕ String
  unit : Option String ⊕ String
  format : Option String
  decimals : Option String
  sign : String
  scale : Int
  value : DecNum
deriving DecidableEq, Repr

/-- The keyword arguments `_get_nonnumeric` builds for one candidate
element. -/
structure ElemNN where
  context : ixbrlContext ⊕ String
  name : String
  format_ : Option String
  value : String
deriving DecidableEq, Repr

/-- The element dict `_get_numeric` builds for one candidate: the
fixed `text`/`context`/`unit` entries merged under the element's full
attribute map (`**s.attrs`), so a same-named attribute overrides the
fixed entry with its plain string. -/
structure ElemNum where
  name : Option String
  text : String
  context : ixbrlContext ⊕ String
  unit : Option String ⊕ String
  attrs : List (String × String)
deriving DecidableEq, Repr

/-- Modelled from the spec: the `ixbrlNonNumeric` constructor
(`ixbrlparse/components.py` is not among the sources) — splits the
qualified name and stores the remaining keyword arguments; it has no
failure mode of its own. -/
def mkNonNumeric (el : ElemNN) : Except PyError ixbrlNonNumeric :=
  let qn := splitQName el.name
  .ok { context := el.context, schema := qn.1, name := qn.2
        format_ := el.format_, value := el.value }

/-- The scale entry of the element dict: absent defaults to `0`, an
unparsable value is a conversion failure. -/
def scaleOf (attrs : List (String × String)) : Except PyError Int :=
  match dictGet attrs "scale" with
  | none => .ok 0
  | some s =>
    match parseInt? s with
    | some z => .ok z
    | none => .error (.valueError s)

/-- Modelled from the spec: the `ixbrlNumeric` constructor
(`ixbrlparse/components.py` is not among the sources) — reads
format, sign, scale and decimals from the attribute map, hands raw
text, format, sign and scale to the NumericNormalizer, and fails
exactly when the normalizer fails. -/
def mkNumericFact (el : ElemNum) : Except PyError ixbrlNumeric :=
  let sign := (dictGet el.attrs "sign").getD ""
  let fmt := dictGet el.attrs "format"
  match scaleOf el.attrs with
  | .error e => .error e
  | .ok scale =>
    match normalizeNum el.text fmt sign scale with
    | .error e => .error e
    | .ok v =>
      let qn := splitQName (el.name.getD "")
      .ok { schema := qn.1, name := qn.2, text := el.text
            context := el.context, unit := el.unit, format := fmt
            decimals := dictGet el.attrs "decimals", sign := sign
            scale := scale, value := v }

mutual

/-- Decidable equality of elements. -/
def elemDecEq : (a b : Elem) → Decidable (a = b)
  | .mk t1 a1 x1 d1, .mk t2 a2 x2 d2 =>
    match decEq t1 t2 with
    | isFalse h => isFalse (by intro hh; cases hh; exact h rfl)
    | isTrue h1 =>
      match decEq a1 a2 with
      | isFalse h => isFalse (by intro hh; cases hh; exact h rfl)
      | isTrue h2 =>
        match decEq x1 x2 with
        | isFalse h => isFalse (by intro hh; cases hh; exact h rfl)
        | isTrue h3 =>
          match elemListDecEq d1 d2 with
          | isFalse h => isFalse (by intro hh; cases hh; exact h rfl)
          | isTrue h4 => isTrue (by rw [h1, h2, h3, h4])

/-- Decidable equality of element lists. -/
def elemListDecEq : (a b : List Elem) → Decidable (a = b)
  | [], [] => isTrue rfl
  | [], _ :: _ => isFalse (by intro h; cases h)
  | _ :: _, [] => isFalse (by intro h; cases h)
  | a :: as, b :: bs =>
    match elemDecEq a b with
    | isFalse h => isFalse (by intro hh; cases hh; exact h rfl)
    | isTrue h1 =>
      match elemListDecEq as bs with
      | isFalse h => isFalse (by intro hh; cases hh; exact h rfl)
      | isTrue h2 => isTrue (by rw [h1, h2])

end

instance : DecidableEq Elem := elemDecEq

/-- Outcome of one fact-extraction pass: the facts appended so far,
the recoverable errors appended so far (each the pair of error and
offending element), and — when the pass did not run to completion —
the error that propagated out of it. -/
structure Extracted (α : Type) where
  facts : List α
  errors : List (PyError × Elem)
  halted : Option PyError
deriving DecidableEq

/-- The shared shape of `_get_nonnumeric`/`_get_numeric` in both
parsers: per candidate element, first build the element dict
(attribute subscripts happen here, outside the `try` block, so a
failure propagates uncaught and unrecorded); then run the fact
constructor inside the `try` block — on failure the pair
{error, element} is appended to the error list, after which
raise-on-error propagates the error and collect-on-error continues
with the next element. -/
def extractLoop (buildDict : Elem → Except PyError β)
    (mk : β → Except PyError α) (roe : Bool) : List Elem → Extracted α
  | [] => ⟨[], [], none⟩
  | s :: rest =>
    match buildDict s with
    | .error e => ⟨[], [], some e⟩
    | .ok el =>
      match mk el with
      | .ok f =>
        let r := extractLoop buildDict mk roe rest
        ⟨f :: r.facts, r.errors, r.halted⟩
      | .error e =>
        if roe then ⟨[], [(e, s)], some e⟩
        else
          let r := extractLoop buildDict mk roe rest
          ⟨r.facts, (e, s) :: r.errors, r.halted⟩

/-- The element dict of `_get_nonnumeric`: the resolved-or-raw
context reference (`KeyError` when `contextRef` is absent), the name
— subscripted in the inline parser (`KeyError` when absent), the tag
name in the bare parser —, the optional format, and the trimmed
newline-free text. -/
def elementDictNN (ft : Filetype) (ctxs : List (String × ixbrlContext))
    (s : Elem) : Except PyError ElemNN :=
  match dictGet s.attrs "contextRef" with
  | none => .error (.keyError "contextRef")
  | some cref =>
    match ft with
    | .ixbrl =>
      match dictGet s.attrs "name" with
      | none => .error (.keyError "name")
      | some nm =>
        .ok { context := resolveCtx ctxs cref, name := nm
              format_ := dictGet s.attrs "format"
              value := dropNl (pyStrip s.textContent) }
    | .xbrl =>
      .ok { context := resolveCtx ctxs cref, name := s.tag
            format_ := dictGet s.attrs "format"
            value := dropNl (pyStrip s.textContent) }

/-- The element dict of `_get_numeric`: text, resolved-or-raw context
and unit references (`KeyError` when `contextRef`/`unitRef` is
absent), merged under the full attribute map — an attribute named
`text`, `context`, `unit` or (in the bare parser) `name` overrides
the fixed entry with its plain attribute string. -/
def elementDictNum (ft : Filetype) (ctxs : List (String × ixbrlContext))
    (units : List (String × Option String)) (s : Elem) :
    Except PyError ElemNum :=
  match dictGet s.attrs "contextRef" with
  | none => .error (.keyError "contextRef")
  | some cref =>
    match dictGet s.attrs "unitRef" with
    | none => .error (.keyError "unitRef")
    | some uref =>
      .ok { name :=
              match ft with
              | .ixbrl => dictGet s.attrs "name"
              | .xbrl => some ((dictGet s.attrs "name").getD s.tag)
            text := (dictGet s.attrs "text").getD s.textContent
            context :=
              match dictGet s.attrs "context" with
              | some ov => .inr ov
              | none => resolveCtx ctxs cref
            unit :=
              match dictGet s.attrs "unit" with
              | some ov => .inr ov
              | none => resolveUnit units uref
            attrs := s.attrs }

/-- Non-numeric fact candidates per grammar: the inline parser takes
every `nonNumeric` element; the bare parser walks all descendants of
the `xbrl` root (an `AttributeError` when it is absent) and keeps
the elements with a truthy context reference and no truthy unit
reference. -/
def nonnumericCandidates (ft : Filetype) (soup : Elem) :
    Except PyError (List Elem) :=
  match ft with
  | .ixbrl => .ok (findAllNamed ["nonNumeric"] soup)
  | .xbrl =>
    match findNamed ["xbrl"] soup with
    | none => .error (.attrError "find_all")
    | some r =>
      .ok (r.desc.filter (fun s =>
        pyTruthy (dictGet s.attrs "contextRef")
          && !pyTruthy (dictGet s.attrs "unitRef")))

/-- Numeric fact candidates per grammar: the inline parser takes
every `nonFraction` element; the bare parser keeps the descendants
of the `xbrl` root with truthy context and unit references. -/
def numericCandidates (ft : Filetype) (soup : Elem) :
    Except PyError (List Elem) :=
  match ft with
  | .ixbrl => .ok (findAllNamed ["nonFraction"] soup)
  | .xbrl =>
    match findNamed ["xbrl"] soup with
    | none => .error (.attrError "find_all")
    | some r =>
      .ok (r.desc.filter (fun s =>
        pyTruthy (dictGet s.attrs "contextRef")
          && pyTruthy (dictGet s.attrs "unitRef")))

/-- `_get_nonnumeric` of the grammar-selected parser. -/
def runNonnumeric (ft : Filetype) (roe : Bool)
    (ctxs : List (String × ixbrlContext)) (soup : Elem) :
    Except PyError (Extracted ixbrlNonNumeric) :=
  match nonnumericCandidates ft soup with
  | .error e => .error e
  | .ok cands => .ok (extractLoop (elementDictNN ft ctxs) mkNonNumeric roe cands)

/-- `_get_numeric` of the grammar-selected parser. -/
def runNumeric (ft : Filetype) (roe : Bool)
    (ctxs : List (String × ixbrlContext))
    (units : List (String × Option String)) (soup : Elem) :
    Except PyError (Extracted ixbrlNumeric) :=
  match numericCandidates ft soup with
  | .error e => .error e
  | .ok cands =>
    .ok (extractLoop (elementDictNum ft ctxs units) mkNumericFact roe cands)

/-- `IXBRL._get_parser`: an `html` descendant selects the inline
grammar; failing that, an `xbrl` descendant selects the bare
grammar; failing both, the unconditional unrecognised-filetype
error. -/
def getParser (soup : Elem) : Except PyError Filetype :=
  if (findNamed ["html"] soup).isSome then .ok .ixbrl
  else if (findNamed ["xbrl"] soup).isSome then .ok .xbrl
  else .error (.exception "Filetype not recognised")

/-- The attributes `IXBRL.__init__` leaves on the parser object:
each field keeps its default until the phase that populates it has
run. -/
structure ParserState where
  filetype : Option Filetype
  schema : Option String
  namespaces : List (String × List String)
  contexts : List (String × ixbrlContext)
  units : List (String × Option String)
  nonnumeric : List ixbrlNonNumeric
  numeric : List ixbrlNumeric
  errors : List (PyError × Elem)
deriving DecidableEq

/-- The state before any phase has run. -/
def emptyState : ParserState :=
  ⟨none, none, [], [], [], [], [], []⟩

/-- `IXBRL.__init__`: classify, then run the schema, context, unit,
non-numeric and numeric phases in that order, stopping at the first
propagating error; the pair returned is the state the parser object
holds at that moment and the propagated error, if any. -/
def runInit (soup : Elem) (roe : Bool) : ParserState × Option PyError :=
  match getParser soup with
  | .error e => (emptyState, some e)
  | .ok ft =>
    let st0 := { emptyState with filetype := some ft }
    match getSchema ft soup with
    | .error e => (st0, some e)
    | .ok sn =>
      let st1 := { st0 with schema := sn.1, namespaces := sn.2 }
      match getContexts ft soup with
      | .error e => (st1, some e)
      | .ok ctxs =>
        let st2 := { st1 with contexts := ctxs }
        match getUnits ft soup with
        | .error e => (st2, some e)
        | .ok us =>
          let st3 := { st2 with units := us }
          match runNonnumeric ft roe ctxs soup with
          | .error e => (st3, some e)
          | .ok r1 =>
            let st4 := { st3 with nonnumeric := r1.facts
                                  errors := st3.errors ++ r1.errors }
            match r1.halted with
            | some e => (st4, some e)
            | none =>
              match runNumeric ft roe ctxs us soup with
              | .error e => (st4, some e)
              | .ok r2 =>
                let st5 := { st4 with numeric := r2.facts
                                      errors := st4.errors ++ r2.errors }
                (st5, r2.halted)

/-- A JSON-shaped exported value: scalars and null, plus the nested
array/object shapes the tabular contract rules out. -/
inductive JValue where
  | str : String → JValue
  | num : DecNum → JValue
  | bool : Bool → JValue
  | null : JValue
  | arr : List JValue → JValue
  | obj : List (String × JValue) → JValue

/-- Whether an exported value is a scalar or null (not a nested
array or object). -/
def JValue.isScalar : JValue → Bool
  | .arr _ => false
  | .obj _ => false
  | _ => true

/-- A fact selected for tabular export: non-numeric or numeric. -/
abbrev XFact := ixbrlNonNumeric ⊕ ixbrlNumeric

/-- Namespace prefix of a fact (`v.schema`). -/
def factSchema : XFact → String
  | .inl n => n.schema
  | .inr n => n.schema

/-- Local name of a fact (`v.name`). -/
def factName : XFact → String
  | .inl n => n.name
  | .inr n => n.name

/-- Exported `value` cell: the text of a non-numeric fact, the
derived number of a numeric fact. -/
def factValueCell : XFact → JValue
  | .inl n => .str n.value
  | .inr n => .num n.value

/-- Exported `unit` cell: null for a non-numeric fact (it has no
`unit` attribute), else the resolved measure (null when the unit had
no measure child) or the raw unresolved reference string. -/
def factUnitCell : XFact → JValue
  | .inl _ => .null
  | .inr n =>
    match n.unit with
    | .inl (some m) => .str m
    | .inl none => .null
    | .inr r => .str r

/-- Context field of a fact: resolved record or raw reference. -/
def factContext : XFact → ixbrlContext ⊕ String
  | .inl n => n.context
  | .inr n => n.context

/-- Python `"{}".format` of an optional value: `None` renders as the
string `None`. -/
def pyFormatOpt : Option String → String
  | none => "None"
  | some s => s

/-- One rendered segment column value:
`"{} {} {}".format(s.get("tag", ""), s.get("dimension"), s.get("value")).strip()`. -/
def renderSeg (d : List (String × String)) : String :=
  pyStrip (((dictGet d "tag").getD "") ++ " " ++ pyFormatOpt (dictGet d "dimension")
    ++ " " ++ pyFormatOpt (dictGet d "value"))

/-- Exported date-ish cell: `str(x) if x else None` over the stored
period text. -/
def dateCell : Option String → JValue
  | none => .null
  | some s => if s == "" then .null else .str s

/-- The `segment:<index>` columns of one row: one per segment member
of the context, rendered and trimmed; a context with falsy segments
(absent or empty) yields the single empty `segment:0` column. -/
def segColumns (c : ixbrlContext) : List (String × JValue) :=
  match c.segments with
  | some (s0 :: srest) =>
    ((s0 :: srest).enum).map
      (fun p => ("segment:" ++ toString p.1, JValue.str (renderSeg p.2)))
  | _ => [("segment:0", JValue.str "")]

/-- One row of `IXBRL.to_table`: the context's segment columns
(accessing `.segments` on a raw unresolved reference string raises
`AttributeError`), then the fixed columns — namespace-expanded
schema, name, value, unit, and the three period columns — merged
with the segment columns. -/
def toTableRow (nss : List (String × List String)) (v : XFact) :
    Except PyError (List (String × JValue)) :=
  match factContext v with
  | .inr _ => .error (.attrError "segments")
  | .inl c =>
    let segs := segColumns c
    .ok ([("schema",
            JValue.str (joinSpace
              ((dictGet nss ("xmlns:" ++ factSchema v)).getD [factSchema v]))),
          ("name", JValue.str (factName v)),
          ("value", factValueCell v),
          ("unit", factUnitCell v),
          ("instant", dateCell c.instant),
          ("startdate", dateCell c.startdate),
          ("enddate", dateCell c.enddate)] ++ segs)

/-- Map a fallible row builder over the fact list, stopping at the
first propagating error — the loop body of `to_table`. -/
def mapE (f : α → Except ε β) : List α → Except ε (List β)
  | [] => .ok []
  | a :: l =>
    match f a with
    | .error e => .error e
    | .ok b =>
      match mapE f l with
      | .error e => .error e
      | .ok bs => .ok (b :: bs)

/-- The fact subset `to_table(fields)` flattens: non-numeric,
numeric, or both in that order. -/
def selectFacts (fields : String) (nn : List ixbrlNonNumeric)
    (num : List ixbrlNumeric) : List XFact :=
  if fields == "nonnumeric" then nn.map Sum.inl
  else if fields == "numeric" then num.map Sum.inr
  else nn.map Sum.inl ++ num.map Sum.inr

/-- `IXBRL.to_table`. -/
def toTable (fields : String) (st : ParserState) :
    Except PyError (List (List (String × JValue))) :=
  mapE (toTableRow st.namespaces) (selectFacts fields st.nonnumeric st.numeric)

/-- Sample schemaRef element. -/
def elSchemaRef : Elem := .mk "schemaRef" [("xlink:href", "http://example.org/sch.xsd")] "" []

/-- Sample entity identifier element. -/
def elIdent : Elem := .mk "identifier" [("scheme", " http://sch.example/ ")] " 00000001 " []

/-- Sample instant element. -/
def elInstant : Elem := .mk "instant" [] " 2020-12-31 " []

/-- Sample context element with id `c1`. -/
def elCtx1 : Elem := withKids "context" [("id", "c1")] "" [elIdent, elInstant]

/-- Sample measure element. -/
def elMeasure : Elem := .mk "measure" [] " iso4217:GBP " []

/-- Sample unit element with id `u1`. -/
def elUnit1 : Elem := withKids "unit" [("id", "u1")] "" [elMeasure]

/-- Sample resources container. -/
def elRes1 : Elem := withKids "resources" [] "" [elCtx1, elUnit1]

/-- Sample well-formed non-numeric fact element. -/
def elNN1 : Elem := .mk "nonNumeric" [("contextRef", "c1"), ("name", "ns:CompanyName")] " Acme Ltd " []

/-- Sample well-formed numeric fact element. -/
def elNum1 : Elem := .mk "nonFraction" [("contextRef", "c1"), ("unitRef", "u1"), ("name", "ns:Revenue"), ("sign", ""), ("scale", "3"), ("format", "numdotdecimal")] "1,234" []

/-- Sample well-formed inline document. -/
def exDocIX : Elem := withKids "[document]" [] "" [withKids "html" [("xmlns:ns", "http://ns.example/ http://ns.example/v2")] "" [elSchemaRef, elRes1, elNN1, elNum1]]

/-- Numeric fact element missing its context reference. -/
def elNumNoCtx : Elem := .mk "nonFraction" [("unitRef", "u1"), ("name", "ns:Broken")] "1" []

/-- Inline document with one valid numeric fact followed by one
missing its context reference. -/
def exDocC1 : Elem := withKids "[document]" [] "" [withKids "html" [] "" [elSchemaRef, elRes1, elNN1, elNum1, elNumNoCtx]]

/-- Context element missing its id attribute. -/
def elCtxNoId : Elem := withKids "context" [] "" [elIdent, elInstant]

/-- Inline document whose first context element has no id. -/
def exDocC3 : Elem := withKids "[document]" [] "" [withKids "html" [] "" [elSchemaRef, withKids "resources" [] "" [elCtxNoId, elCtx1], elNN1]]

/-- A second instant, for a duplicate-id context. -/
def elInstant2 : Elem := .mk "instant" [] "2021-12-31" []

/-- A second context element reusing id `c1`. -/
def elCtx1b : Elem := withKids "context" [("id", "c1")] "" [elIdent, elInstant2]

/-- A second measure, for a duplicate-id unit. -/
def elMeasure2 : Elem := .mk "measure" [] "iso4217:USD" []

/-- A second unit element reusing id `u1`. -/
def elUnit1b : Elem := withKids "unit" [("id", "u1")] "" [elMeasure2]

/-- Inline document with duplicate context ids and unit ids. -/
def exDocC7 : Elem := withKids "[document]" [] "" [withKids "html" [] "" [elSchemaRef, withKids "resources" [] "" [elCtx1, elCtx1b, elUnit1, elUnit1b]]]

/-- Numeric fact element carrying an unrecognized format code. -/
def elNumBadFmt : Elem := .mk "nonFraction" [("contextRef", "c1"), ("unitRef", "u1"), ("name", "ns:Bad"), ("format", "badformat")] "1,234" []

/-- Inline document whose numeric phase fails on an unrecognized
format code. -/
def exDocC10 : Elem := withKids "[document]" [] "" [withKids "html" [("xmlns:ns", "http://ns.example/")] "" [elSchemaRef, elRes1, elNN1, elNum1, elNumBadFmt]]

/-- Sample bare-grammar entity identifier. -/
def elXident : Elem := .mk "identifier" [("scheme", "sch")] "DEMO XML LIMITED" []

/-- Sample bare-grammar context. -/
def elXctx : Elem := withKids "context" [("id", "y1")] "" [elXident]

/-- Sample bare-grammar unit. -/
def elXunit : Elem := withKids "unit" [("id", "u1")] "" [elMeasure]

/-- Bare-grammar element with context and unit references. -/
def elXnum : Elem := .mk "CashBankInHand" [("contextRef", "y1"), ("unitRef", "u1")] "1" []

/-- Bare-grammar element with only a context reference. -/
def elXnn : Elem := .mk "CompanyName" [("contextRef", "y1")] "DEMO XML" []

/-- Bare-grammar element with neither reference. -/
def elXpad : Elem := .mk "pad" [] "x" []

/-- Sample bare-grammar schemaRef. -/
def elXsch : Elem := .mk "schemaRef" [("xlink:href", "x.xsd")] "" []

/-- Sample bare-grammar root element. -/
def elXroot : Elem := withKids "xbrl" [("xmlns:a", "u")] "" [elXsch, elXctx, elXunit, elXnum, elXnn, elXpad]

/-- Sample well-formed bare document. -/
def exDocX : Elem := withKids "[document]" [] "" [elXroot]

/-- Document matching neither grammar. -/
def exDocNone : Elem := withKids "[document]" [] "" [.mk "foo" [] "" []]

instance [DecidableEq ε] [DecidableEq α] : DecidableEq (Except ε α) := fun a b =>
  match a, b with
  | .ok x, .ok y =>
    match decEq x y with
    | isTrue h => isTrue (by rw [h])
    | isFalse h => isFalse (by intro hh; cases hh; exact h rfl)
  | .ok _, .error _ => isFalse (by intro h; cases h)
  | .error _, .ok _ => isFalse (by intro h; cases h)
  | .error x, .error y =>
    match decEq x y with
    | isTrue h => isTrue (by rw [h])
    | isFalse h => isFalse (by intro hh; cases hh; exact h rfl)

mutual

/-- Decidable equality of exported values. -/
def jvDecEq : (a b : JValue) → Decidable (a = b)
  | .str x, .str y =>
    match decEq x y with
    | isTrue h => isTrue (by rw [h])
    | isFalse h => isFalse (by intro hh; cases hh; exact h rfl)
  | .num x, .num y =>
    match decEq x y with
    | isTrue h => isTrue (by rw [h])
    | isFalse h => isFalse (by intro hh; cases hh; exact h rfl)
  | .bool x, .bool y =>
    match decEq x y with
    | isTrue h => isTrue (by rw [h])
    | isFalse h => isFalse (by intro hh; cases hh; exact h rfl)
  | .null, .null => isTrue rfl
  | .arr x, .arr y =>
    match jvListDecEq x y with
    | isTrue h => isTrue (by rw [h])
    | isFalse h => isFalse (by intro hh; cases hh; exact h rfl)
  | .obj x, .obj y =>
    match jvObjDecEq x y with
    | isTrue h => isTrue (by rw [h])
    | isFalse h => isFalse (by intro hh; cases hh; exact h rfl)
  | .str _, .num _ => isFalse (by intro h; cases h)
  | .str _, .bool _ => isFalse (by intro h; cases h)
  | .str _, .null => isFalse (by intro h; cases h)
  | .str _, .arr _ => isFalse (by intro h; cases h)
  | .str _, .obj _ => isFalse (by intro h; cases h)
  | .num _, .str _ => isFalse (by intro h; cases h)
  | .num _, .bool _ => isFalse (by intro h; cases h)
  | .num _, .null => isFalse (by intro h; cases h)
  | .num _, .arr _ => isFalse (by intro h; cases h)
  | .num _, .obj _ => isFalse (by intro h; cases h)
  | .bool _, .str _ => isFalse (by intro h; cases h)
  | .bool _, .num _ => isFalse (by intro h; cases h)
  | .bool _, .null => isFalse (by intro h; cases h)
  | .bool _, .arr _ => isFalse (by intro h; cases h)
  | .bool _, .obj _ => isFalse (by intro h; cases h)
  | .null, .str _ => isFalse (by intro h; cases h)
  | .null, .num _ => isFalse (by intro h; cases h)
  | .null, .bool _ => isFalse (by intro h; cases h)
  | .null, .arr _ => isFalse (by intro h; cases h)
  | .null, .obj _ => isFalse (by intro h; cases h)
  | .arr _, .str _ => isFalse (by intro h; cases h)
  | .arr _, .num _ => isFalse (by intro h; cases h)
  | .arr _, .bool _ => isFalse (by intro h; cases h)
  | .arr _, .null => isFalse (by intro h; cases h)
  | .arr _, .obj _ => isFalse (by intro h; cases h)
  | .obj _, .str _ => isFalse (by intro h; cases h)
  | .obj _, .num _ => isFalse (by intro h; cases h)
  | .obj _, .bool _ => isFalse (by intro h; cases h)
  | .obj _, .null => isFalse (by intro h; cases h)
  | .obj _, .arr _ => isFalse (by intro h; cases h)

/-- Decidable equality of exported value lists. -/
def jvListDecEq : (a b : List JValue) → Decidable (a = b)
  | [], [] => isTrue rfl
  | [], _ :: _ => isFalse (by intro h; cases h)
  | _ :: _, [] => isFalse (by intro h; cases h)
  | a :: as, b :: bs =>
    match jvDecEq a b with
    | isFalse h => isFalse (by intro hh; cases hh; exact h rfl)
    | isTrue h1 =>
      match jvListDecEq as bs with
      | isFalse h => isFalse (by intro hh; cases hh; exact h rfl)
      | isTrue h2 => isTrue (by rw [h1, h2])

/-- Decidable equality of exported rows. -/
def jvObjDecEq : (a b : List (String × JValue)) → Decidable (a = b)
  | [], [] => isTrue rfl
  | [], _ :: _ => isFalse (by intro h; cases h)
  | _ :: _, [] => isFalse (by intro h; cases h)
  | (k1, v1) :: as, (k2, v2) :: bs =>
    match decEq k1 k2 with
    | isFalse h => isFalse (by intro hh; cases hh; exact h rfl)
    | isTrue h0 =>
      match jvDecEq v1 v2 with
      | isFalse h => isFalse (by intro hh; cases hh; exact h rfl)
      | isTrue h1 =>
        match jvObjDecEq as bs with
        | isFalse h => isFalse (by intro hh; cases hh; exact h rfl)
        | isTrue h2 => isTrue (by rw [h0, h1, h2])

end

instance : DecidableEq JValue := jvDecEq

/-- A concrete numeric element dict with a `"-"` sign marker. -/
def elNumC2 : ElemNum :=
  ⟨some "ns:Rev", "1,234", .inr "c1", .inr "u1",
   [("sign", "-"), ("scale", "3"), ("format", "numdotdecimal")]⟩

/-- The numeric fact built from `elNumC2`. -/
def factC2 : ixbrlNumeric :=
  ⟨"ns", "Rev", "1,234", .inr "c1", .inr "u1", some "numdotdecimal", none,
   "-", 3, ⟨-1234, 3⟩⟩

/-- One fact candidate processed end to end: build the element dict,
then run the fact constructor — the composition of the two stages of
the extraction loop body. -/
def buildFact (bd : Elem → Except PyError β) (mk2 : β → Except PyError α)
    (s : Elem) : Except PyError α :=
  match bd s with
  | .error e => .error e
  | .ok el => mk2 el

/-- One non-numeric candidate processed end to end. -/
def buildNN (ft : Filetype) (ctxs : List (String × ixbrlContext)) (s : Elem) :
    Except PyError ixbrlNonNumeric :=
  buildFact (elementDictNN ft ctxs) mkNonNumeric s

/-- One numeric candidate processed end to end. -/
def buildNum (ft : Filetype) (ctxs : List (String × ixbrlContext))
    (units : List (String × Option String)) (s : Elem) :
    Except PyError ixbrlNumeric :=
  buildFact (elementDictNum ft ctxs units) mkNumericFact s

/-- A fact element whose references resolve against no map. -/
def elFactUnres : Elem :=
  .mk "nonFraction" [("contextRef", "cX"), ("unitRef", "uX"), ("name", "a:B")]
    "5" []

/-- The numeric fact built from `elFactUnres` with empty maps. -/
def factC4 : ixbrlNumeric :=
  ⟨"a", "B", "5", .inr "cX", .inr "uX", none, none, "", 0, ⟨5, 0⟩⟩

/-- A context record for an alternative resolution map. -/
def ctxRecC4 : ixbrlContext := ⟨"cX", ⟨none, none⟩, none, none, none, none⟩

/-- The numeric candidate list of the sample bare document. -/
def exNcX : List Elem :=
  match numericCandidates .xbrl exDocX with
  | .ok l => l
  | .error _ => []

/-- The non-numeric candidate list of the sample bare document. -/
def exNncX : List Elem :=
  match nonnumericCandidates .xbrl exDocX with
  | .ok l => l
  | .error _ => []

/-- A non-numeric fact whose context reference did not resolve. -/
def factRawCtx : ixbrlNonNumeric := ⟨.inr "missing", "ns", "B", none, "v"⟩

/-- A context record for resolved-fact examples. -/
def ctxRecC9 : ixbrlContext :=
  ⟨"c1", ⟨some "sch", some "id1"⟩, none, some "2020-12-31", none, none⟩

/-- A non-numeric fact with a resolved context. -/
def factResCtx : ixbrlNonNumeric := ⟨.inl ctxRecC9, "ns", "A", none, "w"⟩

/-- A parser state holding one resolved-context fact and one
raw-context fact. -/
def exStRaw : ParserState :=
  { emptyState with nonnumeric := [factResCtx, factRawCtx] }

/-- A parser state holding only resolved-context facts. -/
def exStRes : ParserState :=
  { emptyState with nonnumeric := [factResCtx] }

/-- Decidable list membership from decidable equality. -/
def decMem [DecidableEq α] (a : α) : (l : List α) → Decidable (a ∈ l)
  | [] => isFalse (by intro h; cases h)
  | b :: t =>
    match decEq a b with
    | isTrue h => isTrue (h ▸ List.mem_cons_self b t)
    | isFalse h =>
      match decMem a t with
      | isTrue h2 => isTrue (List.mem_cons_of_mem b h2)
      | isFalse h2 => isFalse (by
          intro hh
          rcases List.mem_cons.mp hh with rfl | hm
          · exact h rfl
          · exact h2 hm)

instance [DecidableEq α] (a : α) (l : List α) : Decidable (a ∈ l) := decMem a l

/-- A context with one segment member, for the export examples. -/
def ctxSegC8 : ixbrlContext :=
  ⟨"c2", ⟨some "sch", some "id2"⟩,
   some [[("tag", "explicitMember"), ("value", "FullAccounts"),
          ("dimension", "AccountsTypeDimension")]],
   none, some "2020-01-01", some "2020-12-31"⟩

/-- A numeric fact bound to the segment-carrying context. -/
def factNumC8 : ixbrlNumeric :=
  ⟨"ns", "N", "1", .inl ctxSegC8, .inl (some "iso4217:GBP"), none, none, "",
   0, ⟨1, 0⟩⟩

/-- A parser state with one segment-free and one segment-carrying
fact. -/
def exStC8 : ParserState :=
  { emptyState with nonnumeric := [factResCtx], numeric := [factNumC8] }

/-- The rows exported from `exStC8`. -/
def exRowsC8 : List (List (String × JValue)) :=
  match toTable "all" exStC8 with
  | .ok r => r
  | .error _ => []

/-- The context elements of the duplicate-id document. -/
def exCelemsC7 : List Elem :=
  match contextElements .ixbrl exDocC7 with
  | .ok l => l
  | .error _ => []

/-- The unit elements of the duplicate-id document. -/
def exUelemsC7 : List Elem :=
  match unitElements .ixbrl exDocC7 with
  | .ok l => l
  | .error _ => []

/-- The context map of the duplicate-id document. -/
def exCmC7 : List (String × ixbrlContext) :=
  match getContexts .ixbrl exDocC7 with
  | .ok m => m
  | .error _ => []

/-- The unit map of the duplicate-id document. -/
def exUmC7 : List (String × Option String) :=
  match getUnits .ixbrl exDocC7 with
  | .ok m => m
  | .error _ => []

/-- The contexts of the bad-format document. -/
def exCtxsC10 : List (String × ixbrlContext) :=
  match getContexts .ixbrl exDocC10 with
  | .ok m => m
  | .error _ => []

/-- The units of the bad-format document. -/
def exUnitsC10 : List (String × Option String) :=
  match getUnits .ixbrl exDocC10 with
  | .ok m => m
  | .error _ => []

/-- The schema phase output of the bad-format document. -/
def exSnC10 : Option String × List (String × List String) :=
  match getSchema .ixbrl exDocC10 with
  | .ok p => p
  | .error _ => (none, [])

/-- The completed non-numeric phase of the bad-format document. -/
def exR1C10 : Extracted ixbrlNonNumeric :=
  match runNonnumeric .ixbrl true exCtxsC10 exDocC10 with
  | .ok r => r
  | .error _ => ⟨[], [], none⟩

/-- The halted numeric phase of the bad-format document. -/
def exR2C10 : Extracted ixbrlNumeric :=
  match runNumeric .ixbrl true exCtxsC10 exUnitsC10 exDocC10 with
  | .ok r => r
  | .error _ => ⟨[], [], none⟩

/-- The error-list entry one candidate contributes: the pair of
error and offending element on failure, nothing on success. -/
def errEntry (r : Except PyError α) (s : Elem) : Option (PyError × Elem) :=
  match r with
  | .error e => some (e, s)
  | .ok _ => none

/-- The context elements of the id-less-context document. -/
def exCelemsC3 : List Elem :=
  match contextElements .ixbrl exDocC3 with
  | .ok l => l
  | .error _ => []

theorem dictGet_nil (j : String) : dictGet ([] : List (String × α)) j = none := rfl

theorem dictGet_cons (a : String) (b : α) (rest : List (String × α))
    (j : String) :
    dictGet ((a, b) :: rest) j = if a = j then some b else dictGet rest j := by
  by_cases h : a = j
  · have hb : ((a, b).1 == j) = true := beq_iff_eq.mpr h
    simp [dictGet, List.find?_cons_of_pos _ hb, h]
  · have hb : ((a, b).1 == j) = false := beq_eq_false_iff_ne.mpr h
    simp [dictGet, List.find?_cons_of_neg, hb, h]

theorem dictSet_cons (a : String) (b : α) (rest : List (String × α))
    (k : String) (v : α) :
    dictSet ((a, b) :: rest) k v =
      if a = k then (k, v) :: rest else (a, b) :: dictSet rest k v := by
  by_cases h : a = k
  · have hb : ((a, b).1 == k) = true := beq_iff_eq.mpr h
    simp [dictSet, hb, h]
  · have hb : ((a, b).1 == k) = false := beq_eq_false_iff_ne.mpr h
    simp [dictSet, hb, h]

theorem dictGet_dictSet_self (d : List (String × α)) (k : String) (v : α) :
    dictGet (dictSet d k v) k = some v := by
  induction d with
  | nil => simp [dictSet, dictGet_cons]
  | cons p rest ih =>
    obtain ⟨a, b⟩ := p
    rw [dictSet_cons]
    by_cases h : a = k
    · rw [if_pos h, dictGet_cons, if_pos rfl]
    · rw [if_neg h, dictGet_cons, if_neg h]
      exact ih

theorem dictGet_dictSet_ne (d : List (String × α)) (k j : String) (v : α)
    (h : j ≠ k) : dictGet (dictSet d k v) j = dictGet d j := by
  induction d with
  | nil =>
    show dictGet [(k, v)] j = none
    rw [dictGet_cons, if_neg (Ne.symm h)]
    rfl
  | cons p rest ih =>
    obtain ⟨a, b⟩ := p
    rw [dictSet_cons]
    by_cases hp : a = k
    · subst hp
      rw [if_pos rfl, dictGet_cons, if_neg (Ne.symm h), dictGet_cons,
        if_neg (Ne.symm h)]
    · rw [if_neg hp, dictGet_cons, dictGet_cons]
      by_cases hj : a = j
      · rw [if_pos hj, if_pos hj]
      · rw [if_neg hj, if_neg hj]
        exact ih

theorem pow10_pos (z : Int) : 0 < pow10 z := by
  unfold pow10
  split
  · exact pow_pos (by norm_num) _
  · exact div_pos one_pos (pow_pos (by norm_num) _)

theorem parseDecimal_nonneg (cs : List Char) (m : DecNum)
    (h : parseDecimal? cs = some m) : 0 ≤ m.mant := by
  unfold parseDecimal? at h
  split at h
  · rename_i i hsp
    cases hd : decToNat? i with
    | none => rw [hd] at h; cases h
    | some n =>
      rw [hd] at h
      cases h
      exact Int.natCast_nonneg n
  · split at h
    · cases h
      positivity
    · cases h
  · cases h

theorem parseMagnitude_nonneg (raw : String) (fmt : Option String) (m : DecNum)
    (h : parseMagnitude raw fmt = .ok m) : 0 ≤ m.mant := by
  unfold parseMagnitude at h
  split at h
  · cases h
  · cases h; simp
  · split at h
    · cases h
      exact parseDecimal_nonneg _ _ (by assumption)
    · cases h

/-- C5: document classification checks the inline-root marker first
and selects the inline grammar when one exists anywhere in the tree;
otherwise an existing bare-format root marker selects the bare
grammar; and with neither marker, initialization fails with the
unrecognised-filetype error under either error policy. -/
theorem c5_classification (soup : Elem) :
    ((findNamed ["html"] soup).isSome = true → getParser soup = .ok .ixbrl)
    ∧ ((findNamed ["html"] soup).isSome = false →
        (findNamed ["xbrl"] soup).isSome = true → getParser soup = .ok .xbrl)
    ∧ ((findNamed ["html"] soup).isSome = false →
        (findNamed ["xbrl"] soup).isSome = false →
        ∀ roe, runInit soup roe =
          (emptyState, some (.exception "Filetype not recognised"))) := by
  refine ⟨fun h1 => ?_, fun h1 h2 => ?_, fun h1 h2 roe => ?_⟩
  · simp [getParser, h1]
  · simp [getParser, h1, h2]
  · simp [runInit, getParser, h1, h2]

theorem c5_witness :
    getParser exDocIX = .ok .ixbrl
    ∧ getParser exDocX = .ok .xbrl
    ∧ runInit exDocNone true =
        (emptyState, some (.exception "Filetype not recognised"))
    ∧ runInit exDocNone false =
        (emptyState, some (.exception "Filetype not recognised")) :=
  ⟨(c5_classification exDocIX).1 (by decide),
   (c5_classification exDocX).2.1 (by decide) (by decide),
   (c5_classification exDocNone).2.2 (by decide) (by decide) true,
   (c5_classification exDocNone).2.2 (by decide) (by decide) false⟩

/-- C2: for every extracted numeric fact, the sign marker alone
determines the sign of the derived value: a `"-"` marker with a
non-zero parsed magnitude yields a negative value, and any other
marker (the empty marker in particular) yields a non-negative value,
independent of the raw text's content. -/
theorem c2_sign_authoritative (el : ElemNum) (f : ixbrlNumeric)
    (h : mkNumericFact el = .ok f) :
    (f.sign = "-" → ∀ m, parseMagnitude f.text f.format = .ok m →
      m.mant ≠ 0 → f.value.toRat < 0)
    ∧ (f.sign ≠ "-" → 0 ≤ f.value.toRat) := by
  simp only [mkNumericFact] at h
  split at h
  · cases h
  · split at h
    · cases h
    · rename_i scale hscale v hnorm
      cases h
      simp only [normalizeNum] at hnorm
      split at hnorm
      · cases hnorm
      · rename_i m0 hp
        cases hnorm
        refine ⟨fun hs m hm hm0 => ?_, fun hs => ?_⟩
        · simp only at hm hs
          rw [hp] at hm
          cases hm
          have hge : 0 ≤ m0.mant := parseMagnitude_nonneg _ _ _ hp
          have hpos : 0 < m0.mant := lt_of_le_of_ne hge (Ne.symm hm0)
          simp only [DecNum.toRat, applyScale, applySign, hs, if_pos]
          apply mul_neg_of_neg_of_pos _ (pow10_pos _)
          push_cast
          simpa using hpos
        · simp only at hs
          have hge : 0 ≤ m0.mant := parseMagnitude_nonneg _ _ _ hp
          simp only [DecNum.toRat, applyScale, applySign, if_neg hs]
          exact mul_nonneg (by simpa using hge) (le_of_lt (pow10_pos _))

theorem c2_witness :
    mkNumericFact elNumC2 = .ok factC2
    ∧ factC2.sign = "-"
    ∧ parseMagnitude factC2.text factC2.format = .ok ⟨1234, 0⟩
    ∧ (⟨1234, 0⟩ : DecNum).mant ≠ 0
    ∧ factC2.value.toRat < 0 :=
  ⟨by decide, by decide, by decide, by decide,
   (c2_sign_authoritative elNumC2 factC2 (by decide)).1 (by decide)
     ⟨1234, 0⟩ (by decide) (by decide)⟩

theorem mkNumericFact_fields (el : ElemNum) (f : ixbrlNumeric)
    (h : mkNumericFact el = .ok f) :
    f.context = el.context ∧ f.unit = el.unit ∧ f.text = el.text := by
  simp only [mkNumericFact] at h
  split at h
  · cases h
  · split at h
    · cases h
    · cases h
      exact ⟨rfl, rfl, rfl⟩

theorem mkNumericFact_ok_congr (el1 el2 : ElemNum) (ht : el1.text = el2.text)
    (ha : el1.attrs = el2.attrs) :
    exOk (mkNumericFact el1) = exOk (mkNumericFact el2) := by
  simp only [mkNumericFact, ht, ha]
  cases hs : scaleOf el2.attrs with
  | error e => rfl
  | ok scale =>
    cases hn : normalizeNum el2.text (dictGet el2.attrs "format")
        ((dictGet el2.attrs "sign").getD "") scale with
    | error e => simp [hn]
    | ok v => simp [hn, exOk]

/-- C4: a fact candidate's context reference (and, for numeric
candidates, unit reference) resolves against the id-keyed maps, and
an unresolved id is carried through as the raw reference string in
place of the resolved record: the non-numeric fact is still built
with the raw string, a numeric fact — whenever its construction
succeeds — carries both raw strings, and whether numeric
construction succeeds does not depend on the resolution maps at all,
so a fact is never dropped for an unresolved reference alone. -/
theorem c4_fallback_to_raw_ref (ctxs : List (String × ixbrlContext))
    (units : List (String × Option String)) (s : Elem) (cref uref : String)
    (hc : dictGet s.attrs "contextRef" = some cref)
    (hcu : dictGet ctxs cref = none)
    (hoc : dictGet s.attrs "context" = none) :
    (∀ nm, dictGet s.attrs "name" = some nm →
      ∃ f, buildNN .ixbrl ctxs s = .ok f ∧ f.context = .inr cref)
    ∧ (dictGet s.attrs "unitRef" = some uref → dictGet units uref = none →
        dictGet s.attrs "unit" = none →
        ∀ f, buildNum .ixbrl ctxs units s = .ok f →
          f.context = .inr cref ∧ f.unit = .inr uref)
    ∧ (∀ ctxs2 units2, exOk (buildNum .ixbrl ctxs2 units2 s) =
        exOk (buildNum .ixbrl ctxs units s)) := by
  refine ⟨fun nm hnm => ?_, fun hu huu hou f hf => ?_, fun ctxs2 units2 => ?_⟩
  · simp only [buildNN, buildFact, elementDictNN, hc, hnm, mkNonNumeric]
    exact ⟨_, rfl, by simp [resolveCtx, hcu]⟩
  · simp only [buildNum, buildFact, elementDictNum, hc, hu, hoc, hou] at hf
    obtain ⟨h1, h2, _⟩ := mkNumericFact_fields _ _ hf
    rw [h1, h2]
    constructor
    · simp [resolveCtx, hcu]
    · simp [resolveUnit, huu]
  · simp only [buildNum, buildFact, elementDictNum, hc]
    cases hur : dictGet s.attrs "unitRef" with
    | none => rfl
    | some u => exact mkNumericFact_ok_congr _ _ rfl rfl

theorem c4_witness :
    (∃ f, buildNN .ixbrl [] elFactUnres = .ok f ∧ f.context = .inr "cX")
    ∧ buildNum .ixbrl [] [] elFactUnres = .ok factC4
    ∧ factC4.context = .inr "cX" ∧ factC4.unit = .inr "uX"
    ∧ exOk (buildNum .ixbrl [("cX", ctxRecC4)] [] elFactUnres) =
        exOk (buildNum .ixbrl [] [] elFactUnres) :=
  ⟨(c4_fallback_to_raw_ref [] [] elFactUnres "cX" "uX" (by decide) (by decide)
      (by decide)).1 "a:B" (by decide),
   by decide,
   ((c4_fallback_to_raw_ref [] [] elFactUnres "cX" "uX" (by decide) (by decide)
      (by decide)).2.1 (by decide) (by decide) (by decide) factC4 (by decide)).1,
   ((c4_fallback_to_raw_ref [] [] elFactUnres "cX" "uX" (by decide) (by decide)
      (by decide)).2.1 (by decide) (by decide) (by decide) factC4 (by decide)).2,
   (c4_fallback_to_raw_ref [] [] elFactUnres "cX" "uX" (by decide) (by decide)
      (by decide)).2.2 [("cX", ctxRecC4)] []⟩

/-- C6: under the bare grammar, every element of the document tree
is classified by its reference attributes: both a context reference
and a unit reference make it a numeric candidate (and not a
non-numeric one); a context reference without a unit reference makes
it a non-numeric candidate (and not a numeric one); and without a
context reference it is no fact candidate at all. -/
theorem c6_bare_classification (soup r : Elem) (nc nnc : List Elem)
    (hr : findNamed ["xbrl"] soup = some r)
    (hn : numericCandidates .xbrl soup = .ok nc)
    (hnn : nonnumericCandidates .xbrl soup = .ok nnc)
    (s : Elem) (hs : s ∈ r.desc) :
    (pyTruthy (dictGet s.attrs "contextRef") = true →
      pyTruthy (dictGet s.attrs "unitRef") = true → s ∈ nc ∧ s ∉ nnc)
    ∧ (pyTruthy (dictGet s.attrs "contextRef") = true →
        pyTruthy (dictGet s.attrs "unitRef") = false → s ∈ nnc ∧ s ∉ nc)
    ∧ (pyTruthy (dictGet s.attrs "contextRef") = false →
        s ∉ nc ∧ s ∉ nnc) := by
  simp only [numericCandidates, hr] at hn
  simp only [nonnumericCandidates, hr] at hnn
  cases hn
  cases hnn
  refine ⟨fun h1 h2 => ⟨?_, ?_⟩, fun h1 h2 => ⟨?_, ?_⟩, fun h1 => ⟨?_, ?_⟩⟩
  · exact List.mem_filter.mpr ⟨hs, by simp [h1, h2]⟩
  · intro hmem
    have := (List.mem_filter.mp hmem).2
    simp [h1, h2] at this
  · exact List.mem_filter.mpr ⟨hs, by simp [h1, h2]⟩
  · intro hmem
    have := (List.mem_filter.mp hmem).2
    simp [h1, h2] at this
  · intro hmem
    have := (List.mem_filter.mp hmem).2
    simp [h1] at this
  · intro hmem
    have := (List.mem_filter.mp hmem).2
    simp [h1] at this

theorem c6_witness :
    (elXnum ∈ exNcX ∧ elXnum ∉ exNncX)
    ∧ (elXnn ∈ exNncX ∧ elXnn ∉ exNcX)
    ∧ (elXpad ∉ exNcX ∧ elXpad ∉ exNncX) :=
  ⟨(c6_bare_classification exDocX elXroot exNcX exNncX (by decide) (by decide)
      (by decide) elXnum (by decide)).1 (by decide) (by decide),
   (c6_bare_classification exDocX elXroot exNcX exNncX (by decide) (by decide)
      (by decide) elXnn (by decide)).2.1 (by decide) (by decide),
   (c6_bare_classification exDocX elXroot exNcX exNncX (by decide) (by decide)
      (by decide) elXpad (by decide)).2.2 (by decide)⟩

theorem toTableRow_inr (nss : List (String × List String)) (v : XFact)
    (r : String) (h : factContext v = .inr r) :
    toTableRow nss v = .error (.attrError "segments") := by
  simp only [toTableRow, h]

theorem toTableRow_inl (nss : List (String × List String)) (v : XFact)
    (c : ixbrlContext) (h : factContext v = .inl c) :
    ∃ row, toTableRow nss v = .ok row := by
  simp only [toTableRow, h]
  exact ⟨_, rfl⟩

theorem mapE_error_of_inr (nss : List (String × List String)) (l : List XFact)
    (h : ∃ v, v ∈ l ∧ ∃ r, factContext v = .inr r) :
    mapE (toTableRow nss) l = .error (.attrError "segments") := by
  induction l with
  | nil => obtain ⟨v, hv, _⟩ := h; cases hv
  | cons a t ih =>
    cases hctx : factContext a with
    | inr r =>
      simp only [mapE, toTableRow_inr nss a r hctx]
    | inl c =>
      obtain ⟨row, hrow⟩ := toTableRow_inl nss a c hctx
      have ht : ∃ v, v ∈ t ∧ ∃ r, factContext v = .inr r := by
        obtain ⟨v, hv, r, hr⟩ := h
        rcases List.mem_cons.mp hv with rfl | hv2
        · rw [hctx] at hr; cases hr
        · exact ⟨v, hv2, r, hr⟩
      simp only [mapE, hrow, ih ht]

theorem mapE_ok_of_inl (nss : List (String × List String)) (l : List XFact)
    (h : ∀ v ∈ l, ∃ c, factContext v = .inl c) :
    ∃ rows, mapE (toTableRow nss) l = .ok rows := by
  induction l with
  | nil => exact ⟨[], rfl⟩
  | cons a t ih =>
    obtain ⟨c, hc⟩ := h a (List.mem_cons_self a t)
    obtain ⟨row, hrow⟩ := toTableRow_inl nss a c hc
    obtain ⟨rows, hrows⟩ := ih (fun v hv => h v (List.mem_cons_of_mem a hv))
    exact ⟨row :: rows, by simp only [mapE, hrow, hrows]⟩

/-- C9: `to_table` is total exactly under the precondition that every
selected fact's context reference resolved: a selected fact whose
context field holds the raw-reference fallback string makes
`to_table` fail with the attribute-access error raised when reading
the context's segments, producing no rows; when every selected fact
carries a resolved context record, `to_table` returns rows. -/
theorem c9_table_requires_resolved_contexts (fields : String)
    (st : ParserState) :
    ((∃ v, v ∈ selectFacts fields st.nonnumeric st.numeric ∧
        ∃ r, factContext v = .inr r) →
      toTable fields st = .error (.attrError "segments"))
    ∧ ((∀ v ∈ selectFacts fields st.nonnumeric st.numeric,
        ∃ c, factContext v = .inl c) →
      ∃ rows, toTable fields st = .ok rows) :=
  ⟨fun h => mapE_error_of_inr _ _ h, fun h => mapE_ok_of_inl _ _ h⟩

theorem c9_witness :
    toTable "nonnumeric" exStRaw = .error (.attrError "segments")
    ∧ ∃ rows, toTable "nonnumeric" exStRes = .ok rows :=
  ⟨(c9_table_requires_resolved_contexts "nonnumeric" exStRaw).1
      ⟨.inl factRawCtx, by decide, "missing", rfl⟩,
   (c9_table_requires_resolved_contexts "nonnumeric" exStRes).2
      (fun v hv => by
        have : v = .inl factResCtx := by
          rcases List.mem_cons.mp hv with h | h
          · exact h
          · cases h
        rw [this]
        exact ⟨ctxRecC9, rfl⟩)⟩

theorem mapE_mem_ok (f : α → Except ε β) (l : List α) (bs : List β)
    (h : mapE f l = .ok bs) (b : β) (hb : b ∈ bs) : ∃ a ∈ l, f a = .ok b := by
  induction l generalizing bs with
  | nil =>
    cases h
    cases hb
  | cons a t ih =>
    simp only [mapE] at h
    cases hfa : f a with
    | error e => rw [hfa] at h; cases h
    | ok b0 =>
      rw [hfa] at h
      cases hmt : mapE f t with
      | error e => rw [hmt] at h; cases h
      | ok bs0 =>
        rw [hmt] at h
        cases h
        rcases List.mem_cons.mp hb with rfl | hb2
        · exact ⟨a, List.mem_cons_self a t, hfa⟩
        · obtain ⟨a2, ha2, hfa2⟩ := ih bs0 hmt hb2
          exact ⟨a2, List.mem_cons_of_mem a ha2, hfa2⟩

theorem listStarts_append (p rest : List Char) :
    listStarts p (p ++ rest) = true := by
  induction p with
  | nil => rfl
  | cons c cs ih => simp [listStarts, ih]

theorem strStarts_append (p rest : String) : strStarts p (p ++ rest) = true := by
  simp [strStarts, String.data_append, listStarts_append]

theorem factValueCell_scalar (v : XFact) : (factValueCell v).isScalar = true := by
  cases v <;> rfl

theorem factUnitCell_scalar (v : XFact) : (factUnitCell v).isScalar = true := by
  cases v with
  | inl n => rfl
  | inr n =>
    cases hu : n.unit with
    | inl o => cases o <;> simp [factUnitCell, hu, JValue.isScalar]
    | inr r => simp [factUnitCell, hu, JValue.isScalar]

theorem dateCell_scalar (o : Option String) : (dateCell o).isScalar = true := by
  unfold dateCell
  split
  · rfl
  · split <;> rfl

theorem segColumns_scalar (c : ixbrlContext) :
    ∀ kv ∈ segColumns c, kv.2.isScalar = true := by
  unfold segColumns
  split
  · intro kv hkv
    simp only [List.mem_map] at hkv
    obtain ⟨p, _, rfl⟩ := hkv
    rfl
  · intro kv hkv
    simp only [List.mem_singleton] at hkv
    subst hkv
    rfl

theorem segColumns_keys (c : ixbrlContext) :
    ∀ kv ∈ segColumns c, strStarts "segment:" kv.1 = true := by
  unfold segColumns
  split
  · intro kv hkv
    simp only [List.mem_map] at hkv
    obtain ⟨p, _, rfl⟩ := hkv
    exact strStarts_append "segment:" (toString p.1)
  · intro kv hkv
    simp only [List.mem_singleton] at hkv
    subst hkv
    decide

theorem segColumns_ne_nil (c : ixbrlContext) : segColumns c ≠ [] := by
  unfold segColumns
  split
  · simp
  · simp

theorem segColumns_noseg (c : ixbrlContext)
    (h : c.segments = none ∨ c.segments = some []) :
    segColumns c = [("segment:0", JValue.str "")] := by
  unfold segColumns
  rcases h with h | h <;> rw [h]

theorem toTableRow_props (nss : List (String × List String)) (v : XFact)
    (row : List (String × JValue)) (c : ixbrlContext)
    (h : toTableRow nss v = .ok row) (hctx : factContext v = .inl c) :
    (∀ kv ∈ row, kv.2.isScalar = true)
    ∧ (∃ kv ∈ row, strStarts "segment:" kv.1 = true)
    ∧ ((c.segments = none ∨ c.segments = some []) →
        row.filter (fun kv => strStarts "segment:" kv.1) =
          [("segment:0", JValue.str "")]) := by
  simp only [toTableRow, hctx] at h
  cases h
  refine ⟨?_, ?_, ?_⟩
  · intro kv hkv
    rcases List.mem_append.mp hkv with hb | hsg
    · simp only [List.mem_cons, List.not_mem_nil, or_false] at hb
      rcases hb with rfl | rfl | rfl | rfl | rfl | rfl | rfl
      · rfl
      · rfl
      · exact factValueCell_scalar v
      · exact factUnitCell_scalar v
      · exact dateCell_scalar _
      · exact dateCell_scalar _
      · exact dateCell_scalar _
    · exact segColumns_scalar c kv hsg
  · obtain ⟨kv0, hkv0⟩ := List.exists_mem_of_ne_nil _ (segColumns_ne_nil c)
    exact ⟨kv0, List.mem_append_right _ hkv0, segColumns_keys c kv0 hkv0⟩
  · intro hns
    rw [List.filter_append, segColumns_noseg c hns]
    have h1 : strStarts "segment:" "schema" = false := by decide
    have h2 : strStarts "segment:" "name" = false := by decide
    have h3 : strStarts "segment:" "value" = false := by decide
    have h4 : strStarts "segment:" "unit" = false := by decide
    have h5 : strStarts "segment:" "instant" = false := by decide
    have h6 : strStarts "segment:" "startdate" = false := by decide
    have h7 : strStarts "segment:" "enddate" = false := by decide
    have h8 : strStarts "segment:" "segment:0" = true := by decide
    simp [List.filter_cons, h1, h2, h3, h4, h5, h6, h7, h8]

/-- C8: every row `to_table` produces maps each column to a scalar
or null — never a nested array or object — and carries at least one
`segment:` column; a selected fact whose context has no segment
members gets exactly one segment column, `segment:0`, bound to the
empty string. -/
theorem c8_table_rows_uniform (fields : String) (st : ParserState)
    (rows : List (List (String × JValue)))
    (h : toTable fields st = .ok rows) :
    (∀ row ∈ rows, (∀ kv ∈ row, kv.2.isScalar = true)
      ∧ (∃ kv ∈ row, strStarts "segment:" kv.1 = true))
    ∧ (∀ v ∈ selectFacts fields st.nonnumeric st.numeric,
        ∀ row2 c, toTableRow st.namespaces v = .ok row2 →
          factContext v = .inl c →
          (c.segments = none ∨ c.segments = some []) →
          row2.filter (fun kv => strStarts "segment:" kv.1) =
            [("segment:0", JValue.str "")]) := by
  constructor
  · intro row hrow
    obtain ⟨a, ha, hfa⟩ := mapE_mem_ok _ _ _ h row hrow
    cases hctx : factContext a with
    | inr r => rw [toTableRow_inr st.namespaces a r hctx] at hfa; cases hfa
    | inl c =>
      obtain ⟨p1, p2, _⟩ := toTableRow_props st.namespaces a row c hfa hctx
      exact ⟨p1, p2⟩
  · intro v _ row2 c h2 hc hns
    exact (toTableRow_props st.namespaces v row2 c h2 hc).2.2 hns

theorem c8_witness :
    toTable "all" exStC8 = .ok exRowsC8
    ∧ ((∀ row ∈ exRowsC8, (∀ kv ∈ row, kv.2.isScalar = true)
        ∧ (∃ kv ∈ row, strStarts "segment:" kv.1 = true))
      ∧ (∀ v ∈ selectFacts "all" exStC8.nonnumeric exStC8.numeric,
          ∀ row2 c, toTableRow exStC8.namespaces v = .ok row2 →
            factContext v = .inl c →
            (c.segments = none ∨ c.segments = some []) →
            row2.filter (fun kv => strStarts "segment:" kv.1) =
              [("segment:0", JValue.str "")])) :=
  ⟨by decide, c8_table_rows_uniform "all" exStC8 exRowsC8 (by decide)⟩

theorem getAttrEx_ok (s : Elem) (k v : String) (h : getAttrEx s k = .ok v) :
    dictGet s.attrs k = some v := by
  unfold getAttrEx at h
  cases hd : dictGet s.attrs k with
  | none => rw [hd] at h; cases h
  | some w => rw [hd] at h; cases h; rfl

theorem buildContexts_append (l1 l2 : List Elem)
    (m : List (String × ixbrlContext)) :
    buildContexts (l1 ++ l2) m =
      match buildContexts l1 m with
      | .ok m2 => buildContexts l2 m2
      | .error e => .error e := by
  induction l1 generalizing m with
  | nil => simp [buildContexts]
  | cons s t ih =>
    simp only [List.cons_append]
    cases hid : getAttrEx s "id" with
    | error e => simp [buildContexts, hid]
    | ok i =>
      cases hmk : mkContext s i with
      | error e => simp [buildContexts, hid, hmk]
      | ok c =>
        simp only [buildContexts, hid, hmk]
        exact ih _

theorem buildContexts_untouched (l : List Elem)
    (m m2 : List (String × ixbrlContext)) (i : String)
    (h : ∀ t ∈ l, dictGet t.attrs "id" ≠ some i)
    (hb : buildContexts l m = .ok m2) : dictGet m2 i = dictGet m i := by
  induction l generalizing m with
  | nil => cases hb; rfl
  | cons s rest ih =>
    cases hid : getAttrEx s "id" with
    | error e => simp only [buildContexts, hid] at hb; cases hb
    | ok j =>
      have hj : i ≠ j := by
        intro hij
        exact h s (List.mem_cons_self s rest)
          (by rw [getAttrEx_ok s "id" j hid, hij])
      cases hmk : mkContext s j with
      | error e => simp only [buildContexts, hid, hmk] at hb; cases hb
      | ok c =>
        simp only [buildContexts, hid, hmk] at hb
        rw [ih (dictSet m j c) (fun t ht => h t (List.mem_cons_of_mem s ht)) hb,
          dictGet_dictSet_ne m j i c hj]

theorem buildUnits_append (l1 l2 : List Elem)
    (m : List (String × Option String)) :
    buildUnits (l1 ++ l2) m =
      match buildUnits l1 m with
      | .ok m2 => buildUnits l2 m2
      | .error e => .error e := by
  induction l1 generalizing m with
  | nil => simp [buildUnits]
  | cons s t ih =>
    simp only [List.cons_append]
    cases hid : getAttrEx s "id" with
    | error e => simp [buildUnits, hid]
    | ok i =>
      simp only [buildUnits, hid]
      exact ih _

theorem buildUnits_untouched (l : List Elem)
    (m m2 : List (String × Option String)) (i : String)
    (h : ∀ t ∈ l, dictGet t.attrs "id" ≠ some i)
    (hb : buildUnits l m = .ok m2) : dictGet m2 i = dictGet m i := by
  induction l generalizing m with
  | nil => cases hb; rfl
  | cons s rest ih =>
    cases hid : getAttrEx s "id" with
    | error e => simp only [buildUnits, hid] at hb; cases hb
    | ok j =>
      have hj : i ≠ j := by
        intro hij
        exact h s (List.mem_cons_self s rest)
          (by rw [getAttrEx_ok s "id" j hid, hij])
      simp only [buildUnits, hid] at hb
      rw [ih (dictSet m j (mkUnit s)) (fun t ht => h t (List.mem_cons_of_mem s ht)) hb,
        dictGet_dictSet_ne m j i (mkUnit s) hj]

/-- C7: when several context definitions (or unit definitions) share
an id, the constructed map binds that id to the definition appearing
last in document order — each assignment overwrites the previous
binding. -/
theorem c7_last_write_wins (ft : Filetype) (soup : Elem)
    (celems uelems : List Elem) (cm : List (String × ixbrlContext))
    (um : List (String × Option String))
    (hce : contextElements ft soup = .ok celems)
    (hcm : getContexts ft soup = .ok cm)
    (hue : unitElements ft soup = .ok uelems)
    (hum : getUnits ft soup = .ok um) :
    (∀ l1 s l2 i, celems = l1 ++ s :: l2 → dictGet s.attrs "id" = some i →
      (∀ t ∈ l2, dictGet t.attrs "id" ≠ some i) →
      ∃ c, mkContext s i = .ok c ∧ dictGet cm i = some c)
    ∧ (∀ l1 s l2 i, uelems = l1 ++ s :: l2 → dictGet s.attrs "id" = some i →
      (∀ t ∈ l2, dictGet t.attrs "id" ≠ some i) →
      dictGet um i = some (mkUnit s)) := by
  have hbc : buildContexts celems [] = .ok cm := by
    simp only [getContexts, hce] at hcm
    exact hcm
  have hbu : buildUnits uelems [] = .ok um := by
    simp only [getUnits, hue] at hum
    exact hum
  constructor
  · intro l1 s l2 i hsplit hid hrest
    subst hsplit
    rw [buildContexts_append] at hbc
    cases hm1 : buildContexts l1 [] with
    | error e => rw [hm1] at hbc; cases hbc
    | ok m1 =>
      rw [hm1] at hbc
      have hga : getAttrEx s "id" = .ok i := by
        unfold getAttrEx
        rw [hid]
      simp only [buildContexts, hga] at hbc
      cases hmk : mkContext s i with
      | error e => rw [hmk] at hbc; cases hbc
      | ok c =>
        rw [hmk] at hbc
        refine ⟨c, rfl, ?_⟩
        rw [buildContexts_untouched l2 _ cm i hrest hbc, dictGet_dictSet_self]
  · intro l1 s l2 i hsplit hid hrest
    subst hsplit
    rw [buildUnits_append] at hbu
    cases hm1 : buildUnits l1 [] with
    | error e => rw [hm1] at hbu; cases hbu
    | ok m1 =>
      rw [hm1] at hbu
      have hga : getAttrEx s "id" = .ok i := by
        unfold getAttrEx
        rw [hid]
      simp only [buildUnits, hga] at hbu
      rw [buildUnits_untouched l2 _ um i hrest hbu, dictGet_dictSet_self]

theorem c7_witness :
    exCelemsC7 = [elCtx1] ++ elCtx1b :: []
    ∧ (∃ c, mkContext elCtx1b "c1" = .ok c ∧ dictGet exCmC7 "c1" = some c)
    ∧ exUelemsC7 = [elUnit1] ++ elUnit1b :: []
    ∧ dictGet exUmC7 "u1" = some (mkUnit elUnit1b) :=
  ⟨by decide,
   (c7_last_write_wins .ixbrl exDocC7 exCelemsC7 exUelemsC7 exCmC7 exUmC7
      (by decide) (by decide) (by decide) (by decide)).1
     [elCtx1] elCtx1b [] "c1" (by decide) (by decide) (by decide),
   by decide,
   (c7_last_write_wins .ixbrl exDocC7 exCelemsC7 exUelemsC7 exCmC7 exUmC7
      (by decide) (by decide) (by decide) (by decide)).2
     [elUnit1] elUnit1b [] "u1" (by decide) (by decide) (by decide)⟩

theorem extractLoop_roe_none (bd : Elem → Except PyError β)
    (mk2 : β → Except PyError α) (l : List Elem)
    (hh : (extractLoop bd mk2 true l).halted = none) :
    (extractLoop bd mk2 true l).errors = []
    ∧ extractLoop bd mk2 false l = extractLoop bd mk2 true l := by
  induction l with
  | nil => exact ⟨rfl, rfl⟩
  | cons s rest ih =>
    cases hbd : bd s with
    | error e => simp [extractLoop, hbd] at hh
    | ok el =>
      cases hmk : mk2 el with
      | ok f =>
        simp only [extractLoop, hbd, hmk] at hh ⊢
        obtain ⟨h1, h2⟩ := ih hh
        exact ⟨h1, by rw [h2]⟩
      | error e => simp [extractLoop, hbd, hmk] at hh

theorem runNonnumeric_roe_none (ft : Filetype)
    (ctxs : List (String × ixbrlContext)) (soup : Elem)
    (r1 : Extracted ixbrlNonNumeric)
    (h : runNonnumeric ft true ctxs soup = .ok r1) (hh : r1.halted = none) :
    r1.errors = [] ∧ runNonnumeric ft false ctxs soup = .ok r1 := by
  simp only [runNonnumeric] at h ⊢
  cases hc : nonnumericCandidates ft soup with
  | error e => rw [hc] at h; cases h
  | ok cands =>
    rw [hc] at h
    dsimp only at h ⊢
    cases h
    obtain ⟨h1, h2⟩ := extractLoop_roe_none _ _ cands hh
    exact ⟨h1, by rw [h2]⟩

/-- C10: the initialization pipeline extracts all non-numeric facts
strictly before any numeric fact, so under raise-on-error policy an
error propagating out of numeric-fact construction leaves the
filetype, schema reference, namespace map, contexts map, units map
and the complete non-numeric fact list populated on the parser
state exactly as the successful earlier phases computed them; the
clean non-numeric phase recorded no errors and is identical to what
collect-on-error mode would have produced. -/
theorem c10_numeric_failure_frame (soup : Elem) (ft : Filetype)
    (sch : Option String) (nss : List (String × List String))
    (ctxs : List (String × ixbrlContext))
    (us : List (String × Option String)) (r1 : Extracted ixbrlNonNumeric)
    (r2 : Extracted ixbrlNumeric) (e : PyError)
    (h1 : getParser soup = .ok ft)
    (h2 : getSchema ft soup = .ok (sch, nss))
    (h3 : getContexts ft soup = .ok ctxs)
    (h4 : getUnits ft soup = .ok us)
    (h5 : runNonnumeric ft true ctxs soup = .ok r1)
    (h6 : r1.halted = none)
    (h7 : runNumeric ft true ctxs us soup = .ok r2)
    (h8 : r2.halted = some e) :
    runInit soup true =
      ({ filetype := some ft, schema := sch, namespaces := nss,
         contexts := ctxs, units := us, nonnumeric := r1.facts,
         numeric := r2.facts, errors := r1.errors ++ r2.errors }, some e)
    ∧ r1.errors = []
    ∧ runNonnumeric ft false ctxs soup = .ok r1 := by
  obtain ⟨he, hf⟩ := runNonnumeric_roe_none ft ctxs soup r1 h5 h6
  refine ⟨?_, he, hf⟩
  simp [runInit, h1, h2, h3, h4, h5, h6, h7, h8, he, emptyState]

theorem c10_witness :
    getParser exDocC10 = .ok .ixbrl
    ∧ getSchema .ixbrl exDocC10 = .ok (exSnC10.1, exSnC10.2)
    ∧ getContexts .ixbrl exDocC10 = .ok exCtxsC10
    ∧ getUnits .ixbrl exDocC10 = .ok exUnitsC10
    ∧ runNonnumeric .ixbrl true exCtxsC10 exDocC10 = .ok exR1C10
    ∧ exR1C10.halted = none
    ∧ runNumeric .ixbrl true exCtxsC10 exUnitsC10 exDocC10 = .ok exR2C10
    ∧ exR2C10.halted = some (.formatError "1,234" "badformat")
    ∧ (runInit exDocC10 true =
        ({ filetype := some .ixbrl, schema := exSnC10.1,
           namespaces := exSnC10.2, contexts := exCtxsC10,
           units := exUnitsC10, nonnumeric := exR1C10.facts,
           numeric := exR2C10.facts,
           errors := exR1C10.errors ++ exR2C10.errors },
         some (.formatError "1,234" "badformat"))
      ∧ exR1C10.errors = []
      ∧ runNonnumeric .ixbrl false exCtxsC10 exDocC10 = .ok exR1C10) :=
  ⟨by decide, by decide, by decide, by decide, by decide, by decide,
   by decide, by decide,
   c10_numeric_failure_frame exDocC10 .ixbrl exSnC10.1 exSnC10.2 exCtxsC10
     exUnitsC10 exR1C10 exR2C10 (.formatError "1,234" "badformat")
     (by decide) (by decide) (by decide) (by decide) (by decide) (by decide)
     (by decide) (by decide)⟩

theorem extractLoop_collect (bd : Elem → Except PyError β)
    (mk2 : β → Except PyError α) (elems : List Elem)
    (h : ∀ s ∈ elems, exOk (bd s) = true) :
    extractLoop bd mk2 false elems =
      ⟨elems.filterMap (fun s => (buildFact bd mk2 s).toOption),
       elems.filterMap (fun s => errEntry (buildFact bd mk2 s) s),
       none⟩ := by
  induction elems with
  | nil => rfl
  | cons s rest ih =>
    have hs := h s (List.mem_cons_self s rest)
    cases hbd : bd s with
    | error e => rw [hbd] at hs; simp [exOk] at hs
    | ok el =>
      have hrest := ih (fun t ht => h t (List.mem_cons_of_mem s ht))
      cases hmk : mk2 el with
      | ok f =>
        simp only [extractLoop, hbd, hmk, hrest]
        simp [List.filterMap_cons, buildFact, hbd, hmk, Except.toOption, errEntry]
      | error e =>
        simp only [extractLoop, hbd, hmk, Bool.false_eq_true, if_false, hrest]
        simp [List.filterMap_cons, buildFact, hbd, hmk, Except.toOption, errEntry]

theorem extractLoop_raise_ok (bd : Elem → Except PyError β)
    (mk2 : β → Except PyError α) (elems : List Elem)
    (h : ∀ s ∈ elems, exOk (buildFact bd mk2 s) = true) :
    extractLoop bd mk2 true elems =
      ⟨elems.filterMap (fun s => (buildFact bd mk2 s).toOption), [], none⟩ := by
  induction elems with
  | nil => rfl
  | cons s rest ih =>
    have hs := h s (List.mem_cons_self s rest)
    cases hbf : buildFact bd mk2 s with
    | error e => rw [hbf] at hs; simp [exOk] at hs
    | ok f =>
      cases hbd : bd s with
      | error e => simp [buildFact, hbd] at hbf
      | ok el =>
        have hmk : mk2 el = .ok f := by
          simp only [buildFact, hbd] at hbf
          exact hbf
        simp only [extractLoop, hbd, hmk,
          ih (fun t ht => h t (List.mem_cons_of_mem s ht))]
        simp [List.filterMap_cons, buildFact, hbd, hmk, Except.toOption]

theorem extractLoop_raise_halt (bd : Elem → Except PyError β)
    (mk2 : β → Except PyError α) (l1 : List Elem) (s : Elem) (l2 : List Elem)
    (e : PyError)
    (hok : ∀ t ∈ l1, exOk (buildFact bd mk2 t) = true)
    (hbd : exOk (bd s) = true)
    (herr : buildFact bd mk2 s = .error e) :
    extractLoop bd mk2 true (l1 ++ s :: l2) =
      ⟨l1.filterMap (fun t => (buildFact bd mk2 t).toOption), [(e, s)],
       some e⟩ := by
  induction l1 with
  | nil =>
    cases hbds : bd s with
    | error e2 => rw [hbds] at hbd; simp [exOk] at hbd
    | ok el =>
      have hmk : mk2 el = .error e := by
        simp only [buildFact, hbds] at herr
        exact herr
      simp [extractLoop, hbds, hmk]
  | cons t rest ih =>
    have ht := hok t (List.mem_cons_self t rest)
    cases hbf : buildFact bd mk2 t with
    | error e2 => rw [hbf] at ht; simp [exOk] at ht
    | ok f =>
      cases hbdt : bd t with
      | error e2 => simp [buildFact, hbdt] at hbf
      | ok el =>
        have hmk : mk2 el = .ok f := by
          simp only [buildFact, hbdt] at hbf
          exact hbf
        have hrec := ih (fun u hu => hok u (List.mem_cons_of_mem t hu))
        simp only [List.cons_append, extractLoop, hbdt, hmk, List.append_eq]
        rw [hrec]
        simp [List.filterMap_cons, buildFact, hbdt, hmk, Except.toOption]

/-- C1 (amended): over candidates whose element dicts build (their
reference attributes are present, so no uncaught `KeyError` arises
outside the `try` block), failures raised inside the fact
constructor are appended to the error list paired with the offending
element; under collect-on-error every failing candidate is skipped,
every succeeding candidate yields its fact and extraction runs to
completion; under raise-on-error a fully-succeeding list behaves the
same with no errors, and otherwise extraction halts at the first
failing candidate, having extracted exactly the preceding facts and
recorded exactly that one error, which then propagates. -/
theorem c1_constructor_failure_policy (ctxs : List (String × ixbrlContext))
    (units : List (String × Option String)) (elems : List Elem)
    (h : ∀ s ∈ elems, exOk (elementDictNum .ixbrl ctxs units s) = true) :
    (extractLoop (elementDictNum .ixbrl ctxs units) mkNumericFact false elems =
      ⟨elems.filterMap (fun s => (buildNum .ixbrl ctxs units s).toOption),
       elems.filterMap (fun s => errEntry (buildNum .ixbrl ctxs units s) s),
       none⟩)
    ∧ ((∀ s ∈ elems, exOk (buildNum .ixbrl ctxs units s) = true) →
        extractLoop (elementDictNum .ixbrl ctxs units) mkNumericFact true
            elems =
          ⟨elems.filterMap (fun s => (buildNum .ixbrl ctxs units s).toOption),
           [], none⟩)
    ∧ (∀ l1 s l2 e, elems = l1 ++ s :: l2 →
        (∀ t ∈ l1, exOk (buildNum .ixbrl ctxs units t) = true) →
        buildNum .ixbrl ctxs units s = .error e →
        extractLoop (elementDictNum .ixbrl ctxs units) mkNumericFact true
            elems =
          ⟨l1.filterMap (fun t => (buildNum .ixbrl ctxs units t).toOption),
           [(e, s)], some e⟩) := by
  simp only [buildNum]
  refine ⟨extractLoop_collect _ _ elems h,
    fun h2 => extractLoop_raise_ok _ _ elems h2,
    fun l1 s l2 e hsplit hok herr => ?_⟩
  subst hsplit
  exact extractLoop_raise_halt _ _ l1 s l2 e hok
    (h s (List.mem_append_right l1 (List.mem_cons_self s l2))) herr

/-- C1 counterexample: in `exDocC1` one numeric candidate lacks its
context reference amid an otherwise valid document; the claim
expects, under collect-on-error, a recorded error and a completed
extraction, but the `KeyError` from the element dict, built outside
the `try` block, propagates with nothing recorded. -/
theorem c1_counterexample :
    (runInit exDocC1 false).2 = some (.keyError "contextRef")
    ∧ (runInit exDocC1 false).1.errors = []
    ∧ (runInit exDocC1 false).1.numeric.length = 1 := by
  decide

theorem c1_witness :
    (∀ s ∈ [elNum1, elNumBadFmt],
      exOk (elementDictNum .ixbrl [] [] s) = true)
    ∧ (extractLoop (elementDictNum .ixbrl [] []) mkNumericFact false
          [elNum1, elNumBadFmt] =
        ⟨[elNum1, elNumBadFmt].filterMap
            (fun s => (buildNum .ixbrl [] [] s).toOption),
         [elNum1, elNumBadFmt].filterMap
           (fun s => errEntry (buildNum .ixbrl [] [] s) s),
         none⟩)
    ∧ (extractLoop (elementDictNum .ixbrl [] []) mkNumericFact true
          [elNum1, elNumBadFmt] =
        ⟨[elNum1].filterMap (fun t => (buildNum .ixbrl [] [] t).toOption),
         [(.formatError "1,234" "badformat", elNumBadFmt)],
         some (.formatError "1,234" "badformat")⟩) :=
  ⟨by decide,
   (c1_constructor_failure_policy [] [] [elNum1, elNumBadFmt] (by decide)).1,
   (c1_constructor_failure_policy [] [] [elNum1, elNumBadFmt] (by decide)).2.2
     [elNum1] elNumBadFmt [] (.formatError "1,234" "badformat") (by decide)
     (by decide) (by decide)⟩

theorem buildContexts_missing_id (elems : List Elem)
    (m : List (String × ixbrlContext))
    (h2 : ∃ s ∈ elems, dictGet s.attrs "id" = none)
    (h3 : ∀ s ∈ elems, ∀ i, dictGet s.attrs "id" = some i →
      exOk (mkContext s i) = true) :
    buildContexts elems m = .error (.keyError "id") := by
  induction elems generalizing m with
  | nil => obtain ⟨s, hs, _⟩ := h2; cases hs
  | cons s rest ih =>
    cases hid : dictGet s.attrs "id" with
    | none =>
      have hga : getAttrEx s "id" = .error (.keyError "id") := by
        unfold getAttrEx
        rw [hid]
      simp [buildContexts, hga]
    | some i =>
      have hmk := h3 s (List.mem_cons_self s rest) i hid
      have hga : getAttrEx s "id" = .ok i := by
        unfold getAttrEx
        rw [hid]
      cases hmkc : mkContext s i with
      | error e => rw [hmkc] at hmk; simp [exOk] at hmk
      | ok c =>
        simp only [buildContexts, hga, hmkc]
        apply ih
        · obtain ⟨t, ht, hnone⟩ := h2
          rcases List.mem_cons.mp ht with rfl | ht2
          · rw [hid] at hnone; cases hnone
          · exact ⟨t, ht2, hnone⟩
        · exact fun t ht i2 hi2 => h3 t (List.mem_cons_of_mem s ht) i2 hi2

/-- C3 (amended): a context-kind element missing its id attribute is
not skipped: its subscripted id access raises an uncaught `KeyError`
that aborts context resolution with no recoverable error recorded,
under either policy — provided every id-carrying context element
before it constructs cleanly, the whole context phase fails with
exactly that `KeyError`. -/
theorem c3_missing_id_aborts (ft : Filetype) (soup : Elem)
    (elems : List Elem)
    (h1 : contextElements ft soup = .ok elems)
    (h2 : ∃ s ∈ elems, dictGet s.attrs "id" = none)
    (h3 : ∀ s ∈ elems, ∀ i, dictGet s.attrs "id" = some i →
      exOk (mkContext s i) = true) :
    getContexts ft soup = .error (.keyError "id") := by
  simp only [getContexts, h1]
  exact buildContexts_missing_id elems [] h2 h3

/-- C3 counterexample: in `exDocC3` the first context element has no
id; the claim expects it skipped, a recoverable error recorded and
the remaining context kept, but even under collect-on-error the
parse aborts with the `KeyError`, the contexts map stays empty and
no error is recorded. -/
theorem c3_counterexample :
    getContexts .ixbrl exDocC3 = .error (.keyError "id")
    ∧ (runInit exDocC3 false).2 = some (.keyError "id")
    ∧ (runInit exDocC3 false).1.contexts = []
    ∧ (runInit exDocC3 false).1.errors = [] := by
  decide

theorem c3_witness :
    contextElements .ixbrl exDocC3 = .ok exCelemsC3
    ∧ (∃ s ∈ exCelemsC3, dictGet s.attrs "id" = none)
    ∧ getContexts .ixbrl exDocC3 = .error (.keyError "id") :=
  ⟨by decide, by decide,
   c3_missing_id_aborts .ixbrl exDocC3 exCelemsC3 (by decide) (by decide)
     (by decide)⟩
